import Mathlib

/-!
Shallow embedding of the tinychess session core (hub, per-session state,
broadcast fan-out, persistence synchronizer) together with proofs about the
specified properties.  The definitions mirror the Go sources:
`internal/game/hub.go`, `internal/game/game.go`, `internal/handlers/*.go` and
`internal/storage/models.go`.  Go maps are embedded as association lists with
overwrite-insert semantics, timestamps as integer nanoseconds, and the external
rules engine (the chess library) as an abstract parameter structure, matching
the specification stance that the rules engine is an opaque collaborator.
-/

namespace Tinychess

/-- chess.Color: White, Black and NoColor (corentings/chess/v2). -/
inductive Color where
  | white
  | black
  | noColor
deriving DecidableEq, Repr

/-- Association-list lookup, embedding Go map read `v, ok := m[k]`. -/
def lookupA {α : Type} : List (String × α) → String → Option α
  | [], _ => none
  | (k, v) :: rest, key => if k = key then some v else lookupA rest key

/-- Association-list overwrite-insert, embedding Go map write `m[k] = v`. -/
def insertA {α : Type} : List (String × α) → String → α → List (String × α)
  | [], key, v => [(key, v)]
  | (k, w) :: rest, key, v =>
      if k = key then (key, v) :: rest else (k, w) :: insertA rest key v

/-- Association-list removal, embedding Go `delete(m, k)`. -/
def eraseA {α : Type} : List (String × α) → String → List (String × α)
  | [], _ => []
  | (k, w) :: rest, key => if k = key then rest else (k, w) :: eraseA rest key

/-- One watcher of a session: the bounded channel created by the SSE handler
(`ch := make(chan []byte, 16)`), embedded as its capacity and current buffer. -/
structure Watcher where
  cap : Nat
  buf : List String
deriving DecidableEq, Repr

/-- The in-memory session (`game.Game`).  The authoritative chess position held
in the private field `g *chess.Game` is embedded by its FEN serialization,
which is how every call site of the session consumes it. -/
structure GameS where
  clients : List (String × Color)
  ownerID : String
  ownerColor : Color
  lastReact : List (String × Int)
  lastSeen : Int
  fen : String
  watchers : List Watcher
deriving DecidableEq, Repr

/-- Starting-position FEN produced by `chess.NewGame()`. -/
def startFEN : String := "rnbqkbnr/pppppppp/8/8/8/8/PPPPPPPP/RNBQKBNR w KQkq - 0 1"

/-- `randomColor` (hub.go): `rand.Intn(2) == 0` yields Black, otherwise White.
The coin models the random draw. -/
def randomColor (coin : Bool) : Color :=
  if coin then Color.black else Color.white

/-- `colorFromString` (hub.go). -/
def colorFromString (s : String) : Color :=
  if s = "black" then Color.black
  else if s = "white" then Color.white
  else Color.noColor

/-- `newGameInstance` (hub.go): fresh session with empty maps, a randomly drawn
owner color, the library starting position and the creation time as last-seen. -/
def newGameInstance (coin : Bool) (now : Int) : GameS :=
  { clients := []
    ownerID := ""
    ownerColor := randomColor coin
    lastReact := []
    lastSeen := now
    fen := startFEN
    watchers := [] }

/-- ASCII whitespace as recognised by `strings.TrimSpace` on the inputs at
hand. -/
def isSpaceChar (c : Char) : Bool :=
  c = ' ' || c = '\t' || c = '\n' || c = '\r'

/-- `strings.TrimSpace` for the ASCII strings the handlers receive. -/
def trimS (s : String) : String :=
  String.mk (((s.toList.dropWhile isSpaceChar).reverse.dropWhile isSpaceChar).reverse)

/-- Lower-casing of one ASCII character, as `strings.ToLower` does. -/
def lowerChar (c : Char) : Char :=
  if 'A' ≤ c ∧ c ≤ 'Z' then Char.ofNat (c.toNat + 32) else c

/-- `strings.ToLower` for the ASCII strings the handlers receive. -/
def toLowerS (s : String) : String :=
  String.mk (s.toList.map lowerChar)

/-- `(*Game).assignColor` (hub.go lines 163-202), returning the mutated session
and the assigned color (`nil` = spectator / empty client id). -/
def assignColor (g : GameS) (clientID : String) : GameS × Option Color :=
  if clientID = "" then (g, none)
  else
    match lookupA g.clients clientID with
    | some col =>
        if g.ownerID = "" then
          ({ g with ownerID := clientID, ownerColor := col }, some col)
        else (g, some col)
    | none =>
        if g.ownerID = "" then
          let oc := if g.ownerColor = Color.noColor then Color.white else g.ownerColor
          ({ g with ownerID := clientID, ownerColor := oc,
                    clients := insertA g.clients clientID oc }, some oc)
        else if g.clients.length < 2 then
          let col := if g.ownerColor = Color.white then Color.black else Color.white
          ({ g with clients := insertA g.clients clientID col }, some col)
        else (g, none)

/-- Modelled from the spec: `(*Game).RemoveClient` is called by the handlers
(HandleRelease) and by the tests (TestRemoveClient, hub tests) but its
definition is not among the sources.  Following spec section 4.1 and the
behaviour the tests pin down, the mapping for the client is deleted and, when
the removed client was the owner, the ownership record is cleared; a remaining
participant is promoted at its next `assignColor` call (hub_test.go,
TestColorPersistsAfterOwnerLeaves). -/
def removeClient (g : GameS) (clientID : String) : GameS :=
  let g1 := { g with clients := eraseA g.clients clientID }
  if g1.ownerID = clientID then { g1 with ownerID := "" } else g1

/-- The mutation performed by `HandleForget` (handlers.go lines 347-353) once
the owner check passed: clear every client assignment and the ownership. -/
def forgetClear (g : GameS) : GameS :=
  { g with clients := [], ownerID := "", ownerColor := Color.noColor }

/-- One persisted active-player record as delivered by `Store.LoadGame`
(`storage.UserSession`); `userID = none` embeds `uuid.Nil`. -/
structure PersistedPlayer where
  active : Bool
  userID : Option String
  color : String
deriving DecidableEq, Repr

/-- The persisted game row as delivered by `Store.LoadGame` (`storage.Game`);
`ownerID = none` embeds `uuid.Nil` and `lastSeen = none` embeds the zero time
(`LastSeen.IsZero()`). -/
structure PersistedGameRow where
  fen : String
  lastSeen : Option Int
  ownerID : Option String
  ownerColor : String
deriving DecidableEq, Repr

/-- `storage.PersistedGame`: the row plus the active user sessions. -/
structure PersistedGame where
  game : PersistedGameRow
  players : List PersistedPlayer
deriving DecidableEq, Repr

/-- The body of the player loop inside `hydrateGame` (hub.go lines 238-247):
inactive players, `uuid.Nil` users and invalid color strings are skipped, the
rest are written into the clients map. -/
def hydratePlayerStep (cs : List (String × Color)) (pl : PersistedPlayer) :
    List (String × Color) :=
  if pl.active = false then cs
  else
    match pl.userID with
    | none => cs
    | some uid =>
        match colorFromString pl.color with
        | Color.noColor => cs
        | col => insertA cs uid col

/-- `(*Hub).hydrateGame` (hub.go lines 204-254) on the branch where a store is
configured, the session id parses and `LoadGame` succeeded with `persisted`.
The other branches leave the fresh session untouched.  `fenOK` stands for the
external `chess.FEN` parser succeeding; `now` is the current time used when the
persisted last-seen is the zero time. -/
def hydrateGame (fenOK : String → Bool) (now : Int) (g : GameS) (persisted : PersistedGame) :
    GameS :=
  let g1 := if persisted.game.fen ≠ "" ∧ fenOK persisted.game.fen then
              { g with fen := persisted.game.fen } else g
  let g2 := { g1 with lastSeen := match persisted.game.lastSeen with
                                  | some t => t
                                  | none => now }
  let g3 := match persisted.game.ownerID with
            | some uid => { g2 with ownerID := uid }
            | none => g2
  let g4 := if colorFromString persisted.game.ownerColor ≠ Color.noColor then
              { g3 with ownerColor := colorFromString persisted.game.ownerColor } else g3
  let g5 := { g4 with clients := persisted.players.foldl hydratePlayerStep g4.clients }
  match persisted.game.ownerID with
  | some uid => if g5.ownerID = "" then { g5 with ownerID := uid } else g5
  | none => g5

/-- The in-memory session registry (`Hub.Games`). -/
structure HubS where
  games : List (String × GameS)
deriving DecidableEq, Repr

/-- `(*Hub).Get` (hub.go lines 259-294) with no store configured (`Store == nil`,
so hydration and the participant upsert are no-ops): resolve or create the
session, then assign a color when a client id is given.  The coin models the
`randomColor()` draw used when the session is created. -/
def hubGet (h : HubS) (id clientID : String) (coin : Bool) (now : Int) :
    HubS × Option Color :=
  match lookupA h.games id with
  | some g =>
      let res := assignColor g clientID
      ({ games := insertA h.games id res.1 }, res.2)
  | none =>
      let g := newGameInstance coin now
      let res := assignColor g clientID
      ({ games := insertA h.games id res.1 }, res.2)

/-- The session published by `(*Hub).CreateGame` (hub.go lines 308-311): a fresh
instance whose owner is recorded with the freshly drawn owner color. -/
def createdSession (ownerID : String) (coin : Bool) (now : Int) : GameS :=
  let g := newGameInstance coin now
  { g with ownerID := ownerID, clients := insertA g.clients ownerID g.ownerColor }

/-- Outcomes of the three synchronous persistence writes issued by
`CreateGame`; `none` means the write succeeds, `some e` that the store returns
the error `e`.  The store itself is an external collaborator, so its outcomes
are inputs of the embedding. -/
structure StoreFate where
  createErr : Option String
  ensureErr : Option String
  saveErr : Option String
deriving DecidableEq, Repr

/-- The persistence writes `CreateGame` can perform, in order. -/
inductive StoreOp where
  | createRow
  | ensureOwner
  | saveState
deriving DecidableEq, Repr

/-- `(*Hub).CreateGame` (hub.go lines 298-359).  `store = none` embeds
`h.Store == nil`; `parseUUID` stands for `uuid.Parse` succeeding; `newID` is
the value of `uuid.NewString()`.  Returns the updated registry, the list of
persistence writes that completed, and the result. -/
def createGame (h : HubS) (store : Option StoreFate) (parseUUID : String → Bool)
    (ownerID newID : String) (coin : Bool) (now : Int) :
    HubS × List StoreOp × Except String (String × Color) :=
  let owner := trimS ownerID
  if owner = "" then (h, [], Except.error "missing owner id")
  else if parseUUID owner = false then (h, [], Except.error "invalid UUID")
  else
    let g := createdSession owner coin now
    let h1 : HubS := { games := insertA h.games newID g }
    match store with
    | none => (h1, [], Except.ok (newID, g.ownerColor))
    | some fate =>
        if parseUUID newID = false then
          ({ games := eraseA h1.games newID }, [], Except.error "invalid UUID")
        else
          match fate.createErr with
          | some e => ({ games := eraseA h1.games newID }, [], Except.error e)
          | none =>
              match fate.ensureErr with
              | some e =>
                  ({ games := eraseA h1.games newID }, [StoreOp.createRow], Except.error e)
              | none =>
                  match fate.saveErr with
                  | some e =>
                      ({ games := eraseA h1.games newID },
                       [StoreOp.createRow, StoreOp.ensureOwner], Except.error e)
                  | none =>
                      (h1, [StoreOp.createRow, StoreOp.ensureOwner, StoreOp.saveState],
                       Except.ok (newID, g.ownerColor))

/-- Five seconds in nanoseconds (`5 * time.Second`). -/
def fiveSeconds : Int := 5000000000

/-- One second in nanoseconds. -/
def oneSecond : Int := 1000000000

/-- `(*Game).CanReact` (game.go lines 104-116).  Durations are integer
nanoseconds; `now` is the current time.  The Go code computes the wait as
`int(5 - now.Sub(t).Seconds())`, a float truncation toward zero; on the guard
`now.Sub(t) < 5s` the numerator `5s - (now - t)` is positive, so the
truncation equals the integer division below for nanosecond-integral
durations. -/
def canReact (g : GameS) (sender : String) (now : Int) : GameS × Bool × Int :=
  match lookupA g.lastReact sender with
  | some t =>
      if now - t < fiveSeconds then
        (g, false, (fiveSeconds - (now - t)) / oneSecond)
      else
        ({ g with lastReact := insertA g.lastReact sender now }, true, 0)
  | none => ({ g with lastReact := insertA g.lastReact sender now }, true, 0)

/-- The non-blocking send `select { case ch <- data: default: }` into one
watcher channel: the message is appended when the buffer has spare capacity
and silently dropped otherwise. -/
def trySend (m : String) (w : Watcher) : Watcher :=
  if w.buf.length < w.cap then { w with buf := w.buf ++ [m] } else w

/-- The fan-out loop shared by `(*Game).Broadcast` and
`(*Game).BroadcastReaction` (game.go lines 62-67 and 122-127): one
non-blocking send per registered watcher. -/
def broadcastQueues (m : String) (ws : List Watcher) : List Watcher :=
  ws.map (trySend m)

/-- Stand-in for `json.Marshal` of the state snapshot taken by
`(*Game).Broadcast`; serialization is an external collaborator and only the
delivered bytes matter for the fan-out. -/
def encodeState (g : GameS) : String :=
  "state " ++ g.fen

/-- `(*Game).Broadcast` (game.go lines 58-69): serialize the snapshot and push
it to every watcher with a non-blocking send. -/
def broadcastState (g : GameS) : GameS :=
  { g with watchers := broadcastQueues (encodeState g) g.watchers }

/-- `(*Game).BroadcastReaction` (game.go lines 119-129) given the serialized
reaction payload. -/
def broadcastReaction (g : GameS) (payload : String) : GameS :=
  { g with watchers := broadcastQueues payload g.watchers }

/-- The game row of the durable store (`storage.Game`, the current model in
src/unnamed/part_008).  UUIDs are embedded as strings; `createdAt` and
`updatedAt` are managed by the storage engine and omitted. -/
structure GameRow where
  id : String
  fen : String
  pgn : String
  ownerID : String
  ownerColor : String
  status : String
  result : String
  active : Bool
  completedAt : Option Int
  lastSeen : Int
deriving DecidableEq, Repr

/-- A user-session row (`storage.UserSession`). -/
structure SessionRow where
  gameID : String
  userID : String
  color : String
  role : String
  active : Bool
  lastSeen : Int
deriving DecidableEq, Repr

/-- A move row (`storage.Move`). -/
structure MoveRow where
  gameID : String
  userID : String
  number : Int
  uci : String
  color : String
deriving DecidableEq, Repr

/-- The durable database contents behind a configured store. -/
structure DBS where
  games : List GameRow
  sessions : List SessionRow
  moves : List MoveRow
deriving DecidableEq, Repr

/-- Errors surfaced by the store reads; `notFound` embeds
`gorm.ErrRecordNotFound` (= `storage.ErrNotFound`). -/
inductive StoreErr where
  | notFound
deriving DecidableEq, Repr

/-- `storage.GameStateUpdate` (models.go lines 86-94). -/
structure GameStateUpdate where
  fen : Option String
  pgn : Option String
  status : Option String
  result : Option String
  active : Option Bool
  lastSeen : Option Int
  completedAt : Option Int
deriving DecidableEq, Repr

/-- Whether the `updates` map built by `SaveGameState` is empty, i.e. every
field of the update is absent (models.go lines 116-139). -/
def GameStateUpdate.isEmpty (u : GameStateUpdate) : Bool :=
  u.fen = none && u.pgn = none && u.status = none && u.result = none &&
  u.active = none && u.lastSeen = none && u.completedAt = none

/-- Applying the non-empty `updates` map of `SaveGameState` to one game row:
exactly the provided columns change. -/
def applyGameUpdate (u : GameStateUpdate) (r : GameRow) : GameRow :=
  { r with
    fen := u.fen.getD r.fen
    pgn := u.pgn.getD r.pgn
    status := u.status.getD r.status
    result := u.result.getD r.result
    active := u.active.getD r.active
    lastSeen := u.lastSeen.getD r.lastSeen
    completedAt := match u.completedAt with
                   | some t => some t
                   | none => r.completedAt }

/-- `(*Store).SaveGameState` (models.go lines 112-142).  `db = none` embeds a
nil store.  Returns the database afterwards, whether a write was issued, and
the call result. -/
def storeSaveGameState (db : Option DBS) (id : String) (u : GameStateUpdate) :
    Option DBS × Bool × Except StoreErr Unit :=
  match db with
  | none => (none, false, Except.ok ())
  | some d =>
      if u.isEmpty then (some d, false, Except.ok ())
      else
        (some { d with games := d.games.map fun r =>
                  if r.id = id then applyGameUpdate u r else r },
         true, Except.ok ())

/-- `(*Store).CreateGame` (models.go lines 97-109); the `ON CONFLICT DO
NOTHING` clause leaves the table unchanged when the id already exists. -/
def storeCreateGame (db : Option DBS) (id ownerID ownerColor : String) (lastSeen : Int) :
    Option DBS × Bool × Except StoreErr Unit :=
  match db with
  | none => (none, false, Except.ok ())
  | some d =>
      if (d.games.find? fun r => r.id = id).isSome then (some d, true, Except.ok ())
      else
        (some { d with games := d.games ++
                  [{ id := id, fen := "", pgn := "", ownerID := ownerID,
                     ownerColor := ownerColor, status := "", result := "",
                     active := true, completedAt := none, lastSeen := lastSeen }] },
         true, Except.ok ())

/-- `(*Store).EnsureUserSession` (models.go lines 145-166): upsert by
`(game_id, user_id)`. -/
def storeEnsureUserSession (db : Option DBS) (gameID userID color role : String)
    (lastSeen : Int) : Option DBS × Bool × Except StoreErr Unit :=
  match db with
  | none => (none, false, Except.ok ())
  | some d =>
      if (d.sessions.find? fun s => s.gameID = gameID && s.userID = userID).isSome then
        (some { d with sessions := d.sessions.map fun s =>
                  if s.gameID = gameID && s.userID = userID then
                    { s with color := color, role := role, active := true,
                             lastSeen := lastSeen }
                  else s },
         true, Except.ok ())
      else
        (some { d with sessions := d.sessions ++
                  [{ gameID := gameID, userID := userID, color := color,
                     role := role, active := true, lastSeen := lastSeen }] },
         true, Except.ok ())

/-- `(*Store).DeactivateUserSession` (models.go lines 169-177). -/
def storeDeactivateUserSession (db : Option DBS) (gameID userID : String) :
    Option DBS × Bool × Except StoreErr Unit :=
  match db with
  | none => (none, false, Except.ok ())
  | some d =>
      (some { d with sessions := d.sessions.map fun s =>
                if s.gameID = gameID && s.userID = userID then
                  { s with active := false } else s },
       true, Except.ok ())

/-- `(*Store).RecordMove` (models.go lines 180-192): append-only move rows. -/
def storeRecordMove (db : Option DBS) (gameID userID : String) (number : Int)
    (uci color : String) : Option DBS × Bool × Except StoreErr Unit :=
  match db with
  | none => (none, false, Except.ok ())
  | some d =>
      (some { d with moves := d.moves ++
                [{ gameID := gameID, userID := userID, number := number,
                   uci := uci, color := color }] },
       true, Except.ok ())

/-- `(*Store).LoadGame` (models.go lines 200-215).  With a nil store it returns
`gorm.ErrRecordNotFound`; otherwise it returns the row and the active
sessions, or `notFound` when the row is absent. -/
def storeLoadGame (db : Option DBS) (id : String) :
    Except StoreErr (GameRow × List SessionRow) :=
  match db with
  | none => Except.error StoreErr.notFound
  | some d =>
      match d.games.find? fun r => r.id = id with
      | none => Except.error StoreErr.notFound
      | some row =>
          Except.ok (row, d.sessions.filter fun s => s.gameID = id && s.active)

/-- `storage.Stats` (models.go lines 218-222). -/
structure Stats where
  started : Int
  completed : Int
  active : Int
deriving DecidableEq, Repr

/-- `(*Store).FetchStats` (models.go lines 225-240): zero counts and success on
a nil store. -/
def storeFetchStats (db : Option DBS) : Except StoreErr Stats :=
  match db with
  | none => Except.ok { started := 0, completed := 0, active := 0 }
  | some d =>
      Except.ok
        { started := d.games.length
          completed := (d.games.filter fun r => r.completedAt.isSome).length
          active := (d.games.filter fun r => r.active).length }

/-- `(*Store).CompleteGame` (models.go lines 243-254). -/
def storeCompleteGame (db : Option DBS) (id status result : String) (completedAt : Int) :
    Option DBS × Bool × Except StoreErr Unit :=
  match db with
  | none => (none, false, Except.ok ())
  | some d =>
      storeSaveGameState (some d) id
        { fen := none, pgn := none, status := some status, result := some result,
          active := some false, lastSeen := none, completedAt := some completedAt }

/-- `(*Store).SetActive` (models.go lines 257-262). -/
def storeSetActive (db : Option DBS) (id : String) (active : Bool) :
    Option DBS × Bool × Except StoreErr Unit :=
  match db with
  | none => (none, false, Except.ok ())
  | some d =>
      storeSaveGameState (some d) id
        { fen := none, pgn := none, status := none, result := none,
          active := some active, lastSeen := none, completedAt := none }

/-- `(*Store).UpdateLastSeen` (models.go lines 265-270). -/
def storeUpdateLastSeen (db : Option DBS) (id : String) (lastSeen : Int) :
    Option DBS × Bool × Except StoreErr Unit :=
  match db with
  | none => (none, false, Except.ok ())
  | some d =>
      storeSaveGameState (some d) id
        { fen := none, pgn := none, status := none, result := none,
          active := none, lastSeen := some lastSeen, completedAt := none }

/-- `(*Store).ForgetGame` (models.go lines 273-284). -/
def storeForgetGame (db : Option DBS) (id : String) (when : Int) :
    Option DBS × Bool × Except StoreErr Unit :=
  match db with
  | none => (none, false, Except.ok ())
  | some d =>
      storeSaveGameState (some d) id
        { fen := none, pgn := none, status := some "Abandoned", result := none,
          active := some false, lastSeen := none, completedAt := some when }

/-- `(*Store).DeactivateAllSessions` (models.go lines 287-292). -/
def storeDeactivateAllSessions (db : Option DBS) (gameID : String) :
    Option DBS × Bool × Except StoreErr Unit :=
  match db with
  | none => (none, false, Except.ok ())
  | some d =>
      (some { d with sessions := d.sessions.map fun s =>
                if s.gameID = gameID then { s with active := false } else s },
       true, Except.ok ())

/-- A piece as consumed by the move handler: its color and whether it is a
pawn (the only piece kind the handler inspects). `Option.none` call sites
embed `chess.NoPiece`. -/
structure Piece where
  pcolor : Color
  isPawn : Bool
deriving DecidableEq, Repr

/-- The opaque rules engine (the chess library), per the specification an
external collaborator with parse/inspect/apply operations.  Positions are
carried as their FEN serialization. -/
structure Engine where
  fenOK : String → Bool
  pieceAt : String → Nat → Option Piece
  turnOf : String → Color
  moveStr : String → String → Except String String

/-- Go string slicing `s[:n]`: defined only when `n` is within bounds,
otherwise the program panics with a slice-bounds error.  Strings in move
requests are ASCII, so character and byte indices coincide. -/
def goTake (s : String) (n : Nat) : Option String :=
  if n ≤ s.length then some (String.mk (s.toList.take n)) else none

/-- Go string indexing `s[i]` for in-range positions. -/
def charAt (s : String) (i : Nat) : Option Char :=
  s.toList.get? i

/-- `parseSquare` (handlers, src/unnamed/part_001 lines 53-63).  Go subtracts
bytes, wrapping modulo 256, then rejects files or ranks above 7. -/
def parseSquare (s : String) : Option Nat :=
  if s.length ≠ 2 then none
  else
    match charAt s 0, charAt s 1 with
    | some c0, some c1 =>
        let file := (c0.toNat + 256 - 97) % 256
        let rank := (c1.toNat + 256 - 49) % 256
        if 7 < file ∨ 7 < rank then none else some (rank * 8 + file)
    | _, _ => none

/-- `appendPromotionIfPawn` (src/unnamed/part_001 lines 20-50): append a queen
suffix when a 4-character move sends a pawn of the current position to the
last rank.  `board.Piece(chess.NoSquare)` is `NoPiece`, embedded by the `none`
square case. -/
def appendPromotionIfPawn (e : Engine) (g : GameS) (uci : String) : String :=
  if uci.length ≠ 4 then uci
  else
    match charAt uci 3 with
    | none => uci
    | some toRank =>
        if toRank ≠ '1' ∧ toRank ≠ '8' then uci
        else
          match goTake uci 2 with
          | none => uci
          | some fromStr =>
              match parseSquare fromStr with
              | none => uci
              | some sq =>
                  if e.fenOK g.fen = false then uci
                  else
                    match e.pieceAt g.fen sq with
                    | none => uci
                    | some p => if p.isPawn then uci ++ "q" else uci

/-- `game.MoveRequest`. -/
structure MoveReq where
  uci : String
  clientID : String
deriving DecidableEq, Repr

/-- The JSON reply of a handler: HTTP status, `ok` flag and `error` text
(empty on success).  The echoed state field carries no information beyond the
session and is elided. -/
structure HResp where
  status : Nat
  ok : Bool
  error : String
deriving DecidableEq, Repr

/-- `(*Handler).HandleMove` (handlers.go lines 159-240) after the session was
resolved and the JSON body decoded into `req`.  `Except.error` embeds a Go
runtime panic; every ordinary reply, including rejections, is `Except.ok`.
The fire-and-forget persistence calls only log and are elided. -/
def handleMove (e : Engine) (g : GameS) (req : MoveReq) (now : Int) :
    Except String (HResp × GameS) :=
  let clientID := trimS req.clientID
  if clientID = "" then
    Except.ok ({ status := 400, ok := false, error := "missing client id" }, g)
  else
    let uci0 := toLowerS (trimS req.uci)
    let uci := appendPromotionIfPawn e g uci0
    match goTake uci 2 with
    | none => Except.error "runtime error: slice bounds out of range"
    | some fromStr =>
        if e.fenOK g.fen = false then
          Except.ok ({ status := 200, ok := false, error := "bad fen" }, g)
        else
          let fsq := parseSquare fromStr
          let piece := match fsq with
                       | some sq => e.pieceAt g.fen sq
                       | none => none
          let turn := e.turnOf g.fen
          match lookupA g.clients clientID with
          | none => Except.ok ({ status := 200, ok := false, error := "unknown client" }, g)
          | some playerColor =>
              match piece with
              | none =>
                  Except.ok ({ status := 200, ok := false, error := "wrong color" }, g)
              | some p =>
                  if p.pcolor ≠ playerColor then
                    Except.ok ({ status := 200, ok := false, error := "wrong color" }, g)
                  else if turn ≠ playerColor then
                    Except.ok ({ status := 200, ok := false, error := "not your turn" }, g)
                  else
                    let g1 := { g with lastSeen := now }
                    match e.moveStr g1.fen uci with
                    | Except.error msg =>
                        Except.ok ({ status := 200, ok := false, error := msg }, g1)
                    | Except.ok fen1 =>
                        Except.ok ({ status := 200, ok := true, error := "" },
                                   broadcastState { g1 with fen := fen1 })

/-- `game.ReactionRequest`. -/
structure ReactReq where
  emoji : String
  sender : String
deriving DecidableEq, Repr

/-- Stand-in for `json.Marshal` of a reaction payload (external
serialization). -/
def encodeReaction (emoji : String) (at_ : Int) (sender : String) : String :=
  "emoji " ++ emoji ++ " " ++ toString at_ ++ " " ++ sender

/-- `(*Handler).HandleReact` (handlers.go lines 243-272) after the session was
resolved and the body decoded: check the cooldown, reject with the
`cooldown <n>s` message, otherwise broadcast the reaction. -/
def handleReact (g : GameS) (body : ReactReq) (now : Int) : HResp × GameS :=
  let r := canReact g body.sender now
  if r.2.1 = false then
    ({ status := 200, ok := false, error := "cooldown " ++ toString r.2.2 ++ "s" }, r.1)
  else
    ({ status := 200, ok := true, error := "" },
     broadcastReaction r.1 (encodeReaction body.emoji now body.sender))

/-- The POST branch of `(*Handler).HandleNew` (handlers.go lines 38-58).
`body = none` embeds a JSON decode failure. -/
def handleNew (h : HubS) (store : Option StoreFate) (parseUUID : String → Bool)
    (body : Option String) (newID : String) (coin : Bool) (now : Int) :
    HResp × HubS :=
  match body with
  | none => ({ status := 400, ok := false, error := "bad json" }, h)
  | some userID0 =>
      let userID := trimS userID0
      if userID = "" then
        ({ status := 400, ok := false, error := "missing user id" }, h)
      else
        match createGame h store parseUUID userID newID coin now with
        | (h1, _, Except.error _) =>
            ({ status := 500, ok := false, error := "could not create game" }, h1)
        | (h1, _, Except.ok _) =>
            ({ status := 200, ok := true, error := "" }, h1)

/-- `(*Handler).HandleForget` (handlers.go lines 314-356) after the body was
decoded to `userID`, on a hub without a store: resolve the session via `Get`
(which may assign the caller a color), check ownership, then clear all client
assignments and the ownership record. -/
def handleForget (h : HubS) (id userID0 : String) (coin : Bool) (now : Int) :
    HResp × HubS :=
  let userID := trimS userID0
  if userID = "" then
    ({ status := 400, ok := false, error := "missing user id" }, h)
  else
    let res := hubGet h id userID coin now
    let h1 := res.1
    match lookupA h1.games id with
    | none => ({ status := 500, ok := false, error := "game unavailable" }, h1)
    | some g =>
        if g.ownerID ≠ userID then
          ({ status := 200, ok := false, error := "not owner" }, h1)
        else
          ({ status := 200, ok := true, error := "" },
           { games := insertA h1.games id (forgetClear g) })

/-- No two client ids are mapped to the same side. -/
def distinctSides (cs : List (String × Color)) : Prop :=
  ∀ p ∈ cs, ∀ q ∈ cs, p.1 ≠ q.1 → p.2 ≠ q.2

/-- The specified session invariant: `clients` never maps two client ids to
the same side, and a non-empty `ownerId` is a key of `clients` mapped to
`ownerColor`. -/
def InvG (g : GameS) : Prop :=
  distinctSides g.clients ∧
  (g.ownerID ≠ "" → lookupA g.clients g.ownerID = some g.ownerColor)

/-- Sessions reachable through the public operations named by the claim:
fresh lazy creation, hydration of a newly created session, explicit
`CreateGame`, the `HandleForget` clearing, and color assignment via
`Hub.Get`. -/
inductive ReachSession : GameS → Prop where
  | fresh (coin : Bool) (now : Int) : ReachSession (newGameInstance coin now)
  | hydrated (coin : Bool) (now hnow : Int) (fenOK : String → Bool) (p : PersistedGame) :
      ReachSession (hydrateGame fenOK hnow (newGameInstance coin now) p)
  | created (ownerID : String) (coin : Bool) (now : Int) (h : ownerID ≠ "") :
      ReachSession (createdSession ownerID coin now)
  | forgot (g : GameS) : ReachSession g → ReachSession (forgetClear g)
  | assign (g : GameS) (c : String) : ReachSession g → ReachSession (assignColor g c).1

/-- The active, valid entries that the hydration player loop writes into the
clients map: active players with a real user id and a valid color string. -/
def activeEntries (pls : List PersistedPlayer) : List (String × Color) :=
  pls.filterMap fun pl =>
    if pl.active = false then none
    else
      match pl.userID with
      | none => none
      | some uid =>
          match colorFromString pl.color with
          | Color.noColor => none
          | col => some (uid, col)

/-- A persisted record is consistent when its active valid players carry
pairwise distinct user ids and pairwise distinct colors, and its owner, when
recorded, is one of those players and carries the recorded owner color. -/
def consistentP (p : PersistedGame) : Prop :=
  ((activeEntries p.players).map Prod.fst).Nodup ∧
  (∀ a ∈ activeEntries p.players, ∀ b ∈ activeEntries p.players, a.1 ≠ b.1 → a.2 ≠ b.2) ∧
  (match p.game.ownerID with
   | none => activeEntries p.players = []
   | some uid =>
       uid ≠ "" ∧ colorFromString p.game.ownerColor ≠ Color.noColor ∧
       (uid, colorFromString p.game.ownerColor) ∈ activeEntries p.players)

/-- Reachability as in `ReachSession` but with hydration restricted to
consistent persisted records. -/
inductive ReachConsistent : GameS → Prop where
  | fresh (coin : Bool) (now : Int) : ReachConsistent (newGameInstance coin now)
  | hydrated (coin : Bool) (now hnow : Int) (fenOK : String → Bool) (p : PersistedGame)
      (hc : consistentP p) :
      ReachConsistent (hydrateGame fenOK hnow (newGameInstance coin now) p)
  | created (ownerID : String) (coin : Bool) (now : Int) (h : ownerID ≠ "") :
      ReachConsistent (createdSession ownerID coin now)
  | forgot (g : GameS) : ReachConsistent g → ReachConsistent (forgetClear g)
  | assign (g : GameS) (c : String) : ReachConsistent g → ReachConsistent (assignColor g c).1

instance (cs : List (String × Color)) : Decidable (distinctSides cs) := by
  unfold distinctSides
  infer_instance

instance (g : GameS) : Decidable (InvG g) := by
  unfold InvG
  infer_instance

/-- Strengthening of the invariant that is inductive for the operations the
claim lists: additionally, a session without an owner has no clients (true
because, among those operations, only owner assignment populates an ownerless
session). -/
def InvS (g : GameS) : Prop :=
  InvG g ∧ (g.ownerID = "" → g.clients = [])

/-- Whether an `Except` result is a success. -/
def exceptIsOk {ε α : Type} : Except ε α → Bool
  | Except.ok _ => true
  | Except.error _ => false

/-- Persisted record used to exhibit an inconsistent hydration input: the row
records an owner, but no active player carries that id. -/
def pBad : PersistedGame :=
  { game := { fen := "", lastSeen := some 0, ownerID := some "u", ownerColor := "white" }
    players := [] }

/-- The session obtained by hydrating a freshly created session from `pBad`. -/
def gBad : GameS := hydrateGame (fun _ => true) 0 (newGameInstance true 0) pBad

/-- A concrete rules-engine instance used to instantiate universally
quantified engine parameters in witnesses. -/
def engine0 : Engine :=
  { fenOK := fun _ => true
    pieceAt := fun _ _ => none
    turnOf := fun _ => Color.white
    moveStr := fun f _ => Except.ok f }

/-- A session that knows client `c1`, used as a witness fixture. -/
def gameC2 : GameS := (assignColor (newGameInstance true 0) "c1").1

/-- Session state after a first accepted reaction of sender `s` at time 0. -/
def reactState1 : GameS := (canReact (newGameInstance true 0) "s" 0).1

/-- The cooldown behaviour of `CanReact` for one sender: a first reaction on a
clean slate succeeds; a second one within the 5-second window is rejected with
the truncated number of remaining seconds (nonnegative, strictly positive only
below 4 seconds) and does not move the recorded timestamp; a reaction 5 or
more seconds after the accepted one succeeds. -/
def cooldownProp (g : GameS) (s : String) (t0 t1 t2 : Int) : Prop :=
  (canReact g s t0).2.1 = true ∧
  (canReact (canReact g s t0).1 s t1).2.1 = false ∧
  (canReact (canReact g s t0).1 s t1).2.2 = (fiveSeconds - (t1 - t0)) / oneSecond ∧
  0 ≤ (canReact (canReact g s t0).1 s t1).2.2 ∧
  (t1 - t0 < 4 * oneSecond → 0 < (canReact (canReact g s t0).1 s t1).2.2) ∧
  (canReact (canReact g s t0).1 s t1).1 = (canReact g s t0).1 ∧
  (canReact (canReact g s t0).1 s t2).2.1 = true

/-- All-or-nothing behaviour of the explicit creation path when a store is
configured: a failing write yields an error and a registry without the new
session; a success implies the game row and the owner participant record were
written. -/
def createAtomicProp (h : HubS) (fate : StoreFate) (parseUUID : String → Bool)
    (ownerID newID : String) (coin : Bool) (now : Int) : Prop :=
  ((fate.createErr ≠ none ∨ fate.ensureErr ≠ none ∨ fate.saveErr ≠ none) →
    exceptIsOk (createGame h (some fate) parseUUID ownerID newID coin now).2.2 = false ∧
    lookupA (createGame h (some fate) parseUUID ownerID newID coin now).1.games newID =
      none) ∧
  (exceptIsOk (createGame h (some fate) parseUUID ownerID newID coin now).2.2 = true →
    StoreOp.createRow ∈ (createGame h (some fate) parseUUID ownerID newID coin now).2.1 ∧
    StoreOp.ensureOwner ∈ (createGame h (some fate) parseUUID ownerID newID coin now).2.1)

/-- Two distinct clients joining a new session in sequence receive opposite
colors; a third distinct client receives no color and is not added to the
clients map. -/
def oppositeColorsProp (id c1 c2 c3 : String) (coin coin2 coin3 : Bool)
    (n1 n2 n3 : Int) : Prop :=
  let r1 := hubGet { games := [] } id c1 coin n1
  let r2 := hubGet r1.1 id c2 coin2 n2
  let r3 := hubGet r2.1 id c3 coin3 n3
  ((r1.2 = some Color.white ∧ r2.2 = some Color.black) ∨
   (r1.2 = some Color.black ∧ r2.2 = some Color.white)) ∧
  r3.2 = none ∧
  (∀ g, lookupA r3.1.games id = some g → lookupA g.clients c3 = none)

/-- After the owner leaves, the remaining participant is promoted on its next
`Get` and keeps its originally assigned side, which also becomes the session
owner color. -/
def promotionProp (id cO cP : String) (coin coin2 coin3 : Bool) (n1 n2 n3 : Int) : Prop :=
  let r1 := hubGet { games := [] } id cO coin n1
  let r2 := hubGet r1.1 id cP coin2 n2
  ∀ g2, lookupA r2.1.games id = some g2 →
    let g3 := removeClient g2 cO
    let h3 : HubS := { games := insertA r2.1.games id g3 }
    let r4 := hubGet h3 id cP coin3 n3
    r4.2 = r2.2 ∧
    (∀ g4, lookupA r4.1.games id = some g4 →
      g4.ownerID = cP ∧ some g4.ownerColor = r2.2)

/-- Non-blocking drop-on-full fan-out: a broadcast is a total function that
keeps the watcher list length, delivers to a queue with spare capacity, leaves
a saturated queue unchanged, and treats the watchers independently of each
other. -/
def broadcastProp (g : GameS) (payload : String) (i : Nat) : Prop :=
  ((broadcastState g).watchers.length = g.watchers.length ∧
   (broadcastReaction g payload).watchers.length = g.watchers.length) ∧
  (∀ w, g.watchers.get? i = some w →
    (w.buf.length < w.cap →
      (broadcastState g).watchers.get? i = some { w with buf := w.buf ++ [encodeState g] } ∧
      (broadcastReaction g payload).watchers.get? i = some { w with buf := w.buf ++ [payload] }) ∧
    (¬ w.buf.length < w.cap →
      (broadcastState g).watchers.get? i = some w ∧
      (broadcastReaction g payload).watchers.get? i = some w)) ∧
  (∀ ws : List Watcher, ws.get? i = g.watchers.get? i →
    (broadcastQueues payload ws).get? i = (broadcastQueues payload g.watchers).get? i)

/-- A watcher-list fixture: one queue with spare capacity, one saturated. -/
def watchedGame : GameS :=
  { newGameInstance true 0 with
      watchers := [{ cap := 16, buf := [] }, { cap := 1, buf := ["old"] }] }

/-- Partial-update behaviour of `SaveGameState` on a configured store: exactly
the provided fields of the update are written, identity and ownership columns
and rows of other games are untouched, an all-absent update issues no write,
and the call succeeds. -/
def partialUpdateProp (db : DBS) (id : String) (u : GameStateUpdate) (r : GameRow) : Prop :=
  ((u.fen = none → (applyGameUpdate u r).fen = r.fen) ∧
   (∀ v, u.fen = some v → (applyGameUpdate u r).fen = v)) ∧
  ((u.pgn = none → (applyGameUpdate u r).pgn = r.pgn) ∧
   (∀ v, u.pgn = some v → (applyGameUpdate u r).pgn = v)) ∧
  ((u.status = none → (applyGameUpdate u r).status = r.status) ∧
   (∀ v, u.status = some v → (applyGameUpdate u r).status = v)) ∧
  ((u.result = none → (applyGameUpdate u r).result = r.result) ∧
   (∀ v, u.result = some v → (applyGameUpdate u r).result = v)) ∧
  ((u.active = none → (applyGameUpdate u r).active = r.active) ∧
   (∀ v, u.active = some v → (applyGameUpdate u r).active = v)) ∧
  ((u.lastSeen = none → (applyGameUpdate u r).lastSeen = r.lastSeen) ∧
   (∀ v, u.lastSeen = some v → (applyGameUpdate u r).lastSeen = v)) ∧
  ((u.completedAt = none → (applyGameUpdate u r).completedAt = r.completedAt) ∧
   (∀ v, u.completedAt = some v → (applyGameUpdate u r).completedAt = some v)) ∧
  ((applyGameUpdate u r).id = r.id ∧
   (applyGameUpdate u r).ownerID = r.ownerID ∧
   (applyGameUpdate u r).ownerColor = r.ownerColor) ∧
  (u.isEmpty = true → storeSaveGameState (some db) id u = (some db, false, Except.ok ())) ∧
  (storeSaveGameState (some db) id u).2.2 = Except.ok () ∧
  (∀ d2, (storeSaveGameState (some db) id u).1 = some d2 →
    ∀ r2 ∈ db.games, r2.id ≠ id → r2 ∈ d2.games)

/-- Every synchronizer method on a nil store, per call result: all writes are
effect-free successes, stats read as zeros, and `LoadGame` reports
not-found. -/
def nilStoreProp (id ownerID color role uci gameID userID status result : String)
    (lastSeen when completedAt : Int) (number : Int) (active : Bool)
    (u : GameStateUpdate) : Prop :=
  storeSaveGameState none id u = (none, false, Except.ok ()) ∧
  storeCreateGame none id ownerID color lastSeen = (none, false, Except.ok ()) ∧
  storeEnsureUserSession none gameID userID color role lastSeen =
    (none, false, Except.ok ()) ∧
  storeDeactivateUserSession none gameID userID = (none, false, Except.ok ()) ∧
  storeRecordMove none gameID userID number uci color = (none, false, Except.ok ()) ∧
  storeCompleteGame none id status result completedAt = (none, false, Except.ok ()) ∧
  storeSetActive none id active = (none, false, Except.ok ()) ∧
  storeUpdateLastSeen none id lastSeen = (none, false, Except.ok ()) ∧
  storeForgetGame none id when = (none, false, Except.ok ()) ∧
  storeDeactivateAllSessions none gameID = (none, false, Except.ok ()) ∧
  storeFetchStats none = Except.ok { started := 0, completed := 0, active := 0 } ∧
  storeLoadGame none id = Except.error StoreErr.notFound

theorem lookupA_insertA_self {α : Type} (m : List (String × α)) (k : String) (v : α) :
    lookupA (insertA m k v) k = some v := by
  induction m with
  | nil => simp [insertA, lookupA]
  | cons hd tl ih =>
      by_cases h : hd.1 = k
      · simp [insertA, lookupA, h]
      · simp [insertA, lookupA, h, ih]

theorem lookupA_insertA_ne {α : Type} (m : List (String × α)) (k k' : String) (v : α)
    (h : k ≠ k') : lookupA (insertA m k v) k' = lookupA m k' := by
  induction m with
  | nil => simp [insertA, lookupA, h]
  | cons hd tl ih =>
      by_cases hk : hd.1 = k
      · simp [insertA, lookupA, hk, h]
      · by_cases hk' : hd.1 = k'
        · simp [insertA, lookupA, hk, hk', Ne.symm h]
        · simp [insertA, lookupA, hk, hk', ih]

theorem eraseA_insertA_absent {α : Type} (m : List (String × α)) (k : String) (v : α)
    (h : lookupA m k = none) : eraseA (insertA m k v) k = m := by
  induction m with
  | nil => simp [insertA, eraseA]
  | cons hd tl ih =>
      by_cases hk : hd.1 = k
      · simp [lookupA, hk] at h
      · have h' : lookupA tl k = none := by
          simpa [lookupA, hk] using h
        simp [insertA, eraseA, hk, ih h']

theorem insertA_absent_eq_append {α : Type} (m : List (String × α)) (k : String) (v : α)
    (h : lookupA m k = none) : insertA m k v = m ++ [(k, v)] := by
  induction m with
  | nil => simp [insertA]
  | cons hd tl ih =>
      by_cases hk : hd.1 = k
      · simp [lookupA, hk] at h
      · have h' : lookupA tl k = none := by
          simpa [lookupA, hk] using h
        simp [insertA, hk, ih h']

theorem lookupA_none_of_mem {α : Type} (m : List (String × α)) (k : String)
    (h : lookupA m k = none) : ∀ p ∈ m, p.1 ≠ k := by
  induction m with
  | nil => intro p hp; cases hp
  | cons hd tl ih =>
      intro p hp
      by_cases hk : hd.1 = k
      · simp [lookupA, hk] at h
      · have h' : lookupA tl k = none := by
          simpa [lookupA, hk] using h
        rcases List.mem_cons.mp hp with hEq | hMem
        · subst hEq; exact hk
        · exact ih h' p hMem

theorem lookupA_mem {α : Type} (m : List (String × α)) (k : String) (v : α)
    (h : lookupA m k = some v) : (k, v) ∈ m := by
  induction m with
  | nil => simp [lookupA] at h
  | cons hd tl ih =>
      by_cases hk : hd.1 = k
      · simp [lookupA, hk] at h
        have hEq : hd = (k, v) := by
          cases hd
          simp only [Prod.mk.injEq]
          simp at hk h
          exact ⟨hk, h⟩
        rw [← hEq]
        exact List.mem_cons_self _ _
      · simp [lookupA, hk] at h
        exact List.mem_cons_of_mem _ (ih h)

theorem trimS_idem (s : String) : trimS (trimS s) = trimS s := by
  unfold trimS
  have htl : ∀ l : List Char, (String.mk l).toList = l := fun l => rfl
  rw [htl]
  have hr : ∀ l : List Char,
      ((l.dropWhile isSpaceChar).reverse.dropWhile isSpaceChar).reverse =
        List.rdropWhile isSpaceChar (l.dropWhile isSpaceChar) := fun l => rfl
  rw [hr, hr]
  congr 1
  have hdm : List.dropWhile isSpaceChar (List.dropWhile isSpaceChar s.toList) =
      List.dropWhile isSpaceChar s.toList := List.dropWhile_idempotent _ _
  have hpre := List.rdropWhile_prefix isSpaceChar (List.dropWhile isSpaceChar s.toList)
  have hX : List.dropWhile isSpaceChar
      (List.rdropWhile isSpaceChar (List.dropWhile isSpaceChar s.toList)) =
      List.rdropWhile isSpaceChar (List.dropWhile isSpaceChar s.toList) := by
    rw [List.dropWhile_eq_self_iff]
    intro hl
    obtain ⟨t, ht⟩ := hpre
    have hlen : 0 < (List.dropWhile isSpaceChar s.toList).length := by
      rw [← ht, List.length_append]
      omega
    have hhead := List.dropWhile_eq_self_iff.mp hdm hlen
    have h0 : (List.rdropWhile isSpaceChar (List.dropWhile isSpaceChar s.toList))[0]? =
        (List.dropWhile isSpaceChar s.toList)[0]? := by
      conv_rhs => rw [← ht]
      rw [List.getElem?_append, if_pos hl]
    have e1 : (List.rdropWhile isSpaceChar (List.dropWhile isSpaceChar s.toList))[0]? =
        some ((List.rdropWhile isSpaceChar (List.dropWhile isSpaceChar s.toList)).get ⟨0, hl⟩) := by
      rw [List.get_eq_getElem]
      exact List.getElem?_eq_getElem hl
    have e2 : (List.dropWhile isSpaceChar s.toList)[0]? =
        some ((List.dropWhile isSpaceChar s.toList).get ⟨0, hlen⟩) := by
      rw [List.get_eq_getElem]
      exact List.getElem?_eq_getElem hlen
    have hg := Option.some.inj (e1.symm.trans (h0.trans e2))
    rw [hg]
    exact hhead
  rw [hX, List.rdropWhile_idempotent]

theorem lookupA_append_none {α : Type} (a b : List (String × α)) (k : String)
    (ha : lookupA a k = none) : lookupA (a ++ b) k = lookupA b k := by
  induction a with
  | nil => simp
  | cons hd tl ih =>
      by_cases hk : hd.1 = k
      · simp [lookupA, hk] at ha
      · have ha' : lookupA tl k = none := by
          simpa [lookupA, hk] using ha
        simpa [lookupA, hk] using ih ha'

theorem foldl_insertA_append (es acc : List (String × Color))
    (hnd : (es.map Prod.fst).Nodup)
    (hdis : ∀ e ∈ es, lookupA acc e.1 = none) :
    es.foldl (fun cs e => insertA cs e.1 e.2) acc = acc ++ es := by
  induction es generalizing acc with
  | nil => simp
  | cons e rest ih =>
      have hstep : insertA acc e.1 e.2 = acc ++ [e] := by
        simpa using insertA_absent_eq_append acc e.1 e.2 (hdis e (by simp))
      have hnd0 : e.1 ∉ rest.map Prod.fst ∧ (rest.map Prod.fst).Nodup := by
        rw [List.map_cons, List.nodup_cons] at hnd
        exact hnd
      have hnd' : (rest.map Prod.fst).Nodup := hnd0.2
      have hne : ∀ f ∈ rest, f.1 ≠ e.1 := by
        intro f hf hEq
        exact hnd0.1 (by simpa [hEq] using List.mem_map_of_mem Prod.fst hf)
      have hdis' : ∀ f ∈ rest, lookupA (acc ++ [e]) f.1 = none := by
        intro f hf
        have h1 : lookupA acc f.1 = none := hdis f (by simp [hf])
        have h2 : lookupA [e] f.1 = none := by
          simp [lookupA, hne f hf]
          intro hc
          exact absurd hc.symm (hne f hf)
        rw [lookupA_append_none acc [e] f.1 h1, h2]
      have := ih (acc ++ [e]) hnd' hdis'
      simp only [List.foldl_cons, hstep, this, List.append_assoc, List.singleton_append]

theorem lookupA_of_mem_nodup {α : Type} (m : List (String × α)) (k : String) (v : α)
    (hnd : (m.map Prod.fst).Nodup) (hm : (k, v) ∈ m) : lookupA m k = some v := by
  induction m with
  | nil => cases hm
  | cons hd tl ih =>
      have hnd0 : hd.1 ∉ tl.map Prod.fst ∧ (tl.map Prod.fst).Nodup := by
        rw [List.map_cons, List.nodup_cons] at hnd
        exact hnd
      rcases List.mem_cons.mp hm with hEq | hMem
      · rw [← hEq]
        simp [lookupA]
      · have hk : hd.1 ≠ k := by
          intro hc
          exact hnd0.1 (by simpa [hc] using List.mem_map_of_mem Prod.fst hMem)
        simp [lookupA, hk, ih hnd0.2 hMem]

theorem foldl_hydrate_eq (pls : List PersistedPlayer) (acc : List (String × Color)) :
    pls.foldl hydratePlayerStep acc =
      (activeEntries pls).foldl (fun cs e => insertA cs e.1 e.2) acc := by
  induction pls generalizing acc with
  | nil => simp [activeEntries]
  | cons pl rest ih =>
      by_cases ha : pl.active = false
      · simp [List.foldl_cons, hydratePlayerStep, ha, activeEntries, ih]
      · cases hu : pl.userID with
        | none =>
            simp [List.foldl_cons, hydratePlayerStep, ha, hu, activeEntries, ih]
        | some uid =>
            cases hc : colorFromString pl.color with
            | noColor =>
                simp [List.foldl_cons, hydratePlayerStep, ha, hu, hc, activeEntries, ih]
            | white =>
                simp [List.foldl_cons, hydratePlayerStep, ha, hu, hc, activeEntries, ih]
            | black =>
                simp [List.foldl_cons, hydratePlayerStep, ha, hu, hc, activeEntries, ih]

theorem hydrateGame_clients (fenOK : String → Bool) (hnow : Int) (g : GameS)
    (p : PersistedGame) :
    (hydrateGame fenOK hnow g p).clients =
      (activeEntries p.players).foldl (fun cs e => insertA cs e.1 e.2) g.clients := by
  unfold hydrateGame
  cases hO : p.game.ownerID <;>
    simp only [hO] <;>
    split <;>
    split <;>
    simp [foldl_hydrate_eq]

theorem hydrateGame_ownerID (fenOK : String → Bool) (hnow : Int) (g : GameS)
    (p : PersistedGame) :
    (hydrateGame fenOK hnow g p).ownerID =
      (match p.game.ownerID with
       | some uid => uid
       | none => g.ownerID) := by
  unfold hydrateGame
  cases hO : p.game.ownerID <;>
    simp only [hO] <;>
    split <;>
    split <;>
    (try split) <;>
    simp_all

theorem hydrateGame_ownerColor (fenOK : String → Bool) (hnow : Int) (g : GameS)
    (p : PersistedGame) :
    (hydrateGame fenOK hnow g p).ownerColor =
      (if colorFromString p.game.ownerColor ≠ Color.noColor then
        colorFromString p.game.ownerColor else g.ownerColor) := by
  unfold hydrateGame
  cases hO : p.game.ownerID <;>
    simp only [hO] <;>
    split <;>
    split <;>
    (try split) <;>
    simp_all

theorem invS_newGame (coin : Bool) (now : Int) : InvS (newGameInstance coin now) := by
  refine ⟨⟨?_, ?_⟩, ?_⟩ <;> simp [newGameInstance, distinctSides]

theorem invS_created (ownerID : String) (coin : Bool) (now : Int)
    (h : ownerID ≠ "") : InvS (createdSession ownerID coin now) := by
  refine ⟨⟨?_, ?_⟩, ?_⟩
  · intro p hp q hq hne
    simp [createdSession, newGameInstance, insertA] at hp hq
    rw [hp, hq] at hne
    simp at hne
  · intro _
    simp [createdSession, newGameInstance, insertA, lookupA]
  · intro hc
    exact absurd hc h

theorem invS_forgot (g : GameS) : InvS (forgetClear g) := by
  refine ⟨⟨?_, ?_⟩, ?_⟩ <;> simp [forgetClear, distinctSides]

theorem invS_hydrated (coin : Bool) (cnow hnow : Int) (fenOK : String → Bool)
    (p : PersistedGame) (hc : consistentP p) :
    InvS (hydrateGame fenOK hnow (newGameInstance coin cnow) p) := by
  have hclients : (hydrateGame fenOK hnow (newGameInstance coin cnow) p).clients =
      activeEntries p.players := by
    rw [hydrateGame_clients]
    have := foldl_insertA_append (activeEntries p.players) [] hc.1 (by
      intro e _
      simp [lookupA])
    simpa [newGameInstance] using this
  have hown := hydrateGame_ownerID fenOK hnow (newGameInstance coin cnow) p
  have hcol := hydrateGame_ownerColor fenOK hnow (newGameInstance coin cnow) p
  refine ⟨⟨?_, ?_⟩, ?_⟩
  · rw [hclients]
    exact hc.2.1
  · intro hne
    cases hO : p.game.ownerID with
    | none =>
        rw [hown, hO] at hne
        simp [newGameInstance] at hne
    | some uid =>
        have hcons := hc.2.2
        rw [hO] at hcons
        rw [hclients, hown, hO, hcol, if_pos hcons.2.1]
        exact lookupA_of_mem_nodup _ _ _ hc.1 hcons.2.2
  · intro hempty
    cases hO : p.game.ownerID with
    | none =>
        have hcons := hc.2.2
        rw [hO] at hcons
        rw [hclients]
        exact hcons
    | some uid =>
        have hcons := hc.2.2
        rw [hO] at hcons
        rw [hown, hO] at hempty
        exact absurd hempty hcons.1

theorem invS_assign (g : GameS) (c : String) (h : InvS g) : InvS (assignColor g c).1 := by
  by_cases hc0 : c = ""
  · simpa [assignColor, hc0] using h
  · cases hl : lookupA g.clients c with
    | some col =>
        by_cases ho : g.ownerID = ""
        · have hcl := h.2 ho
          rw [hcl] at hl
          simp [lookupA] at hl
        · simpa [assignColor, hc0, hl, ho] using h
    | none =>
        by_cases ho : g.ownerID = ""
        · have hcl : g.clients = [] := h.2 ho
          have hstate : assignColor g c =
              ({ g with ownerID := c,
                        ownerColor := if g.ownerColor = Color.noColor then Color.white
                                      else g.ownerColor,
                        clients := [(c, if g.ownerColor = Color.noColor then Color.white
                                        else g.ownerColor)] },
               some (if g.ownerColor = Color.noColor then Color.white else g.ownerColor)) := by
            simp [assignColor, hc0, hl, ho, hcl, insertA, lookupA]
          refine ⟨⟨?_, ?_⟩, ?_⟩
          · intro pa hpa q hq hne
            rw [hstate] at hpa hq
            simp at hpa hq
            rw [hpa, hq] at hne
            simp at hne
          · intro _
            rw [hstate]
            simp [lookupA]
          · intro hcontra
            rw [hstate] at hcontra
            exact absurd hcontra hc0
        · by_cases hlen : g.clients.length < 2
          · have hmem := lookupA_mem _ _ _ (h.1.2 ho)
            have hsingle : g.clients = [(g.ownerID, g.ownerColor)] := by
              cases hcl : g.clients with
              | nil =>
                  rw [hcl] at hmem
                  cases hmem
              | cons x rest =>
                  cases hrest : rest with
                  | nil =>
                      rw [hcl, hrest] at hmem
                      simp at hmem
                      rw [← hmem]
                  | cons y rest2 =>
                      rw [hcl, hrest] at hlen
                      simp at hlen
                      omega
            have hco : g.ownerID ≠ c := by
              intro hEq
              rw [hsingle] at hl
              simp [lookupA, hEq] at hl
            have hins : insertA g.clients c
                (if g.ownerColor = Color.white then Color.black else Color.white) =
                [(g.ownerID, g.ownerColor),
                 (c, if g.ownerColor = Color.white then Color.black else Color.white)] := by
              rw [hsingle]
              simp [insertA, hco]
            have hstate : assignColor g c =
                ({ g with clients :=
                     [(g.ownerID, g.ownerColor),
                      (c, if g.ownerColor = Color.white then Color.black else Color.white)] },
                 some (if g.ownerColor = Color.white then Color.black else Color.white)) := by
              simp [assignColor, hc0, hl, ho, hlen, hins]
            refine ⟨⟨?_, ?_⟩, ?_⟩
            · intro pa hpa q hq hne
              rw [hstate] at hpa hq
              simp at hpa hq
              rcases hpa with hpa | hpa <;> rcases hq with hq | hq
              · rw [hpa, hq] at hne
                exact absurd rfl hne
              · rw [hpa, hq]
                cases hoc : g.ownerColor <;> simp
              · rw [hpa, hq]
                cases hoc : g.ownerColor <;> simp
              · rw [hpa, hq] at hne
                exact absurd rfl hne
            · intro _
              rw [hstate]
              simp [lookupA, hco]
            · intro hcontra
              rw [hstate] at hcontra
              exact absurd hcontra ho
          · simpa [assignColor, hc0, hl, ho, hlen] using h

theorem invS_reach (g : GameS) (h : ReachConsistent g) : InvS g := by
  induction h with
  | fresh coin now => exact invS_newGame coin now
  | hydrated coin now hnow fenOK p hc => exact invS_hydrated coin now hnow fenOK p hc
  | created ownerID coin now hne => exact invS_created ownerID coin now hne
  | forgot gp _ ih => exact invS_forgot gp
  | assign gp c _ ih => exact invS_assign gp c ih

/-- Claim C1, counterexample: the claim quantifies over sessions reachable
through assignColor via Get, hydration of a newly created session, CreateGame
and HandleForget, but hydration places no consistency check on the persisted
record: hydrating a fresh session from a row that records an owner with no
matching active player yields a reachable session whose non-empty `ownerID` is
not a key of `clients`, violating the invariant. -/
theorem c1_session_invariant_counterexample : ReachSession gBad ∧ ¬ InvG gBad :=
  ⟨ReachSession.hydrated true 0 0 (fun _ => true) pBad, by decide⟩

/-- Claim C1, amended: every session reachable through assignColor via Get,
creation of a fresh session, CreateGame and the HandleForget clearing
satisfies the invariant (clients never map two ids to one side; a non-empty
ownerID is a key of clients mapped to ownerColor); hydration preserves it
provided the persisted record is consistent, i.e. its active valid players
have pairwise distinct ids and colors and its recorded owner, when present,
is among them with the recorded owner color. -/
theorem c1_session_invariant (g : GameS) (h : ReachConsistent g) : InvG g :=
  (invS_reach g h).1

/-- Witness for claim C1: the amended theorem applied to a freshly created
session. -/
theorem c1_session_invariant_witness : InvG (newGameInstance true 0) :=
  c1_session_invariant (newGameInstance true 0) (ReachConsistent.fresh true 0)

/-- Claim C2: contrary to the specification, `HandleMove` is not total on
move-notation strings.  For every rules engine, session and non-empty client
id, a request whose notation is the empty string reaches `uci[:2]` unguarded
and panics with a slice-bounds runtime error instead of replying with an
ok-false rejection. -/
theorem c2_move_short_uci_panics (e : Engine) (g : GameS) (cid : String) (now : Int)
    (h : trimS cid ≠ "") :
    handleMove e g { uci := "", clientID := cid } now =
      Except.error "runtime error: slice bounds out of range" := by
  unfold handleMove
  rw [if_neg h]
  rfl

/-- Witness for claim C2: the panic evaluated at a concrete engine and a
session that knows client c1. -/
theorem c2_move_short_uci_panics_witness :
    trimS "c1" ≠ "" ∧
    handleMove engine0 gameC2 { uci := "", clientID := "c1" } 0 =
      Except.error "runtime error: slice bounds out of range" :=
  ⟨by decide, c2_move_short_uci_panics engine0 gameC2 "c1" 0 (by decide)⟩

/-- Claim C3, counterexample: two reaction attempts 4.5 seconds apart: the
first succeeds, the second fails, but the quoted remaining-seconds value is 0,
not strictly positive, because the Go code truncates `5 - elapsedSeconds`. -/
theorem c3_cooldown_counterexample :
    (canReact (newGameInstance true 0) "s" 0).2.1 = true ∧
    (canReact reactState1 "s" 4500000000).2.1 = false ∧
    (canReact reactState1 "s" 4500000000).2.2 = 0 := by
  refine ⟨?_, ?_, ?_⟩ <;> decide

/-- Claim C3, amended: for a sender with no recorded reaction, the first
attempt succeeds; a second attempt less than 5 seconds later fails with the
truncated remaining-seconds value, which is nonnegative and strictly positive
exactly when the attempts are less than 4 seconds apart, and the rejection
leaves the recorded timestamp unchanged; an attempt 5 or more seconds after
the accepted reaction succeeds. -/
theorem c3_cooldown (g : GameS) (s : String) (t0 t1 t2 : Int)
    (hfresh : lookupA g.lastReact s = none)
    (h01 : 0 ≤ t1 - t0) (h15 : t1 - t0 < fiveSeconds) (h25 : fiveSeconds ≤ t2 - t0) :
    cooldownProp g s t0 t1 t2 := by
  unfold cooldownProp
  have hstate : canReact g s t0 = ({ g with lastReact := insertA g.lastReact s t0 }, true, 0) := by
    simp [canReact, hfresh]
  have hlook : lookupA (insertA g.lastReact s t0) s = some t0 := lookupA_insertA_self _ _ _
  have hsecond : canReact (canReact g s t0).1 s t1 =
      ((canReact g s t0).1, false, (fiveSeconds - (t1 - t0)) / oneSecond) := by
    rw [hstate]
    simp [canReact, hlook, h15]
  have hpos : (0 : Int) < fiveSeconds - (t1 - t0) := by
    omega
  refine ⟨by rw [hstate], by rw [hsecond], by rw [hsecond], ?_, ?_, by rw [hsecond], ?_⟩
  · rw [hsecond]
    exact Int.ediv_nonneg hpos.le (by norm_num [oneSecond])
  · intro h4
    rw [hsecond]
    have h1e : oneSecond ≤ fiveSeconds - (t1 - t0) := by
      simp only [fiveSeconds, oneSecond] at h4 ⊢
      omega
    calc (0 : Int) < 1 := by norm_num
      _ ≤ (fiveSeconds - (t1 - t0)) / oneSecond := by
          rw [Int.le_ediv_iff_mul_le (by norm_num [oneSecond])]
          simpa using h1e
  · rw [hstate]
    simp [canReact, hlook, not_lt.mpr h25]

/-- Witness for claim C3: the amended cooldown behaviour at concrete times 0,
4.5 seconds and 6 seconds. -/
theorem c3_cooldown_witness : cooldownProp (newGameInstance true 0) "s" 0 4500000000 6000000000 :=
  c3_cooldown (newGameInstance true 0) "s" 0 4500000000 6000000000
    (by decide) (by decide) (by decide) (by decide)

/-- Claim C4: the explicit creation path with a configured store is
all-or-nothing: any failing persistence write makes `CreateGame` return an
error with the new session removed from the registry, and a success implies
the initial row and the owner participant record were written. -/
theorem c4_create_game_atomic (h : HubS) (fate : StoreFate) (parseUUID : String → Bool)
    (ownerID newID : String) (coin : Bool) (now : Int)
    (hfresh : lookupA h.games newID = none)
    (howner : trimS ownerID ≠ "") (hpo : parseUUID (trimS ownerID) = true)
    (hpn : parseUUID newID = true) :
    createAtomicProp h fate parseUUID ownerID newID coin now := by
  unfold createAtomicProp
  have hroll : lookupA (eraseA (insertA h.games newID
      (createdSession (trimS ownerID) coin now)) newID) newID = none := by
    rw [eraseA_insertA_absent _ _ _ hfresh]
    exact hfresh
  obtain ⟨ce, ee, se⟩ := fate
  cases ce <;> cases ee <;> cases se <;>
    constructor <;>
    simp [createGame, howner, hpo, hpn, exceptIsOk, hroll]

/-- Witness for claim C4: a failing initial-row write at concrete inputs rolls
the session back. -/
theorem c4_create_game_atomic_witness :
    createAtomicProp { games := [] } ⟨some "down", none, none⟩ (fun _ => true) "o" "n" true 0 :=
  c4_create_game_atomic { games := [] } ⟨some "down", none, none⟩ (fun _ => true) "o" "n" true 0
    (by decide) (by decide) (by decide) (by decide)

/-- Claim C5: two distinct non-empty clients joining the same new session in
sequence via `Get` receive opposite colors (one White, one Black); a third
distinct client receives no side and is not added to the clients map. -/
theorem c5_two_clients_opposite (id c1 c2 c3 : String) (coin coin2 coin3 : Bool)
    (n1 n2 n3 : Int) (h1 : c1 ≠ "") (h2 : c2 ≠ "") (h3 : c3 ≠ "")
    (h12 : c1 ≠ c2) (h13 : c1 ≠ c3) (h23 : c2 ≠ c3) :
    oppositeColorsProp id c1 c2 c3 coin coin2 coin3 n1 n2 n3 := by
  unfold oppositeColorsProp
  cases coin with
  | false =>
      refine ⟨Or.inl ⟨?_, ?_⟩, ?_, ?_⟩ <;>
        simp [hubGet, assignColor, newGameInstance, randomColor, insertA, lookupA,
          h1, h2, h3, h12, h13, h23, Ne.symm h12, Ne.symm h13, Ne.symm h23]
  | true =>
      refine ⟨Or.inr ⟨?_, ?_⟩, ?_, ?_⟩ <;>
        simp [hubGet, assignColor, newGameInstance, randomColor, insertA, lookupA,
          h1, h2, h3, h12, h13, h23, Ne.symm h12, Ne.symm h13, Ne.symm h23]

/-- Witness for claim C5 at concrete ids and both coin draws fixed. -/
theorem c5_two_clients_opposite_witness : oppositeColorsProp "g" "a" "b" "c" true true true 0 0 0 :=
  c5_two_clients_opposite "g" "a" "b" "c" true true true 0 0 0
    (by decide) (by decide) (by decide) (by decide) (by decide) (by decide)

/-- Claim C6: after the owner is removed, the remaining participant is
promoted to owner on its next `Get` call, keeps its originally assigned side,
and the session owner color becomes that same side. -/
theorem c6_promoted_owner_keeps_side (id cO cP : String) (coin coin2 coin3 : Bool)
    (n1 n2 n3 : Int) (hO : cO ≠ "") (hP : cP ≠ "") (hOP : cO ≠ cP) :
    promotionProp id cO cP coin coin2 coin3 n1 n2 n3 := by
  unfold promotionProp
  cases coin with
  | false =>
      simp [hubGet, assignColor, newGameInstance, randomColor, insertA, lookupA,
        removeClient, eraseA, forgetClear,
        hO, hP, hOP, Ne.symm hOP]
  | true =>
      simp [hubGet, assignColor, newGameInstance, randomColor, insertA, lookupA,
        removeClient, eraseA, forgetClear,
        hO, hP, hOP, Ne.symm hOP]

/-- Witness for claim C6 at concrete ids. -/
theorem c6_promoted_owner_keeps_side_witness : promotionProp "g" "o" "p" true true true 0 0 0 :=
  c6_promoted_owner_keeps_side "g" "o" "p" true true true 0 0 0
    (by decide) (by decide) (by decide)

/-- Claim C7: a broadcast always returns, preserves the watcher list, delivers
the message to every queue with spare capacity, leaves saturated queues
unchanged, and delivery to one watcher is independent of the other queues. -/
theorem c7_broadcast_nonblocking (g : GameS) (payload : String) (i : Nat) :
    broadcastProp g payload i := by
  unfold broadcastProp broadcastState broadcastReaction broadcastQueues
  refine ⟨⟨by simp, by simp⟩, ?_, ?_⟩
  · intro w hw
    rw [List.get?_eq_getElem?] at hw
    constructor
    · intro hcap
      constructor <;>
        simp [List.get?_eq_getElem?, List.getElem?_map, hw, trySend, hcap]
    · intro hcap
      constructor <;>
        simp [List.get?_eq_getElem?, List.getElem?_map, hw, trySend, hcap]
  · intro ws hws
    rw [List.get?_eq_getElem?, List.get?_eq_getElem?] at hws
    simp [List.get?_eq_getElem?, List.getElem?_map, hws]

/-- Witness for claim C7: a fixture with one spare and one saturated queue. -/
theorem c7_broadcast_nonblocking_witness : broadcastProp watchedGame "payload" 0 :=
  c7_broadcast_nonblocking watchedGame "payload" 0

/-- Claim C8, counterexample: with no durable store configured, `LoadGame` is
not a guaranteed-success no-op: it returns `gorm.ErrRecordNotFound`.  The
claim extends the no-op contract to reads, which the code does not satisfy. -/
theorem c8_nil_store_counterexample :
    storeLoadGame none "00000000-0000-0000-0000-000000000000" =
      Except.error StoreErr.notFound ∧
    exceptIsOk (storeLoadGame none "00000000-0000-0000-0000-000000000000") = false := by
  constructor <;> rfl

/-- Claim C8, amended: with no durable store configured every write method and
the stats read are guaranteed-success no-ops, while the `LoadGame` read
reports not-found. -/
theorem c8_nil_store_noop (id ownerID color role uci gameID userID status result : String)
    (lastSeen when completedAt : Int) (number : Int) (active : Bool)
    (u : GameStateUpdate) :
    nilStoreProp id ownerID color role uci gameID userID status result
      lastSeen when completedAt number active u := by
  unfold nilStoreProp
  refine ⟨?_, ?_, ?_, ?_, ?_, ?_, ?_, ?_, ?_, ?_, ?_, ?_⟩ <;> rfl

/-- Witness for claim C8: the no-op behaviour at concrete arguments. -/
theorem c8_nil_store_noop_witness :
    nilStoreProp "a" "b" "white" "owner" "e2e4" "g" "u" "st" "re" 0 0 0 1 true
      ⟨none, none, none, none, none, none, none⟩ :=
  c8_nil_store_noop "a" "b" "white" "owner" "e2e4" "g" "u" "st" "re" 0 0 0 1 true
    ⟨none, none, none, none, none, none, none⟩

/-- Claim C9: `SaveGameState` is a partial update: exactly the provided fields
are written with the provided values, identity and ownership columns and the
rows of other games are untouched, and an update with every field absent
issues no write and succeeds. -/
theorem c9_save_game_state_partial (db : DBS) (id : String) (u : GameStateUpdate)
    (r : GameRow) : partialUpdateProp db id u r := by
  unfold partialUpdateProp
  refine ⟨⟨fun hv => by simp [applyGameUpdate, hv], fun v hv => by simp [applyGameUpdate, hv]⟩,
    ⟨fun hv => by simp [applyGameUpdate, hv], fun v hv => by simp [applyGameUpdate, hv]⟩,
    ⟨fun hv => by simp [applyGameUpdate, hv], fun v hv => by simp [applyGameUpdate, hv]⟩,
    ⟨fun hv => by simp [applyGameUpdate, hv], fun v hv => by simp [applyGameUpdate, hv]⟩,
    ⟨fun hv => by simp [applyGameUpdate, hv], fun v hv => by simp [applyGameUpdate, hv]⟩,
    ⟨fun hv => by simp [applyGameUpdate, hv], fun v hv => by simp [applyGameUpdate, hv]⟩,
    ⟨fun hv => by simp [applyGameUpdate, hv], fun v hv => by simp [applyGameUpdate, hv]⟩,
    ⟨by simp [applyGameUpdate], by simp [applyGameUpdate], by simp [applyGameUpdate]⟩,
    ?_, ?_, ?_⟩
  · intro hv
    simp [storeSaveGameState, hv]
  · unfold storeSaveGameState
    split
    · rfl
    · split <;> rfl
  · intro d2 hd2 r2 hr2 hne2
    by_cases he : u.isEmpty
    · simp [storeSaveGameState, he] at hd2
      rw [← hd2]
      exact hr2
    · simp [storeSaveGameState, he] at hd2
      rw [← hd2]
      have hmem := List.mem_map_of_mem
        (fun rr => if rr.id = id then applyGameUpdate u rr else rr) hr2
      simp only [hne2, if_false] at hmem
      simpa using hmem

/-- Witness for claim C9: the partial-update behaviour at a concrete row and
an update that only sets the status. -/
theorem c9_save_game_state_partial_witness :
    partialUpdateProp ⟨[⟨"g", "f", "p", "o", "white", "", "", true, none, 0⟩], [], []⟩ "g"
      ⟨none, none, some "Checkmate", none, none, none, none⟩
      ⟨"g", "f", "p", "o", "white", "", "", true, none, 0⟩ :=
  c9_save_game_state_partial ⟨[⟨"g", "f", "p", "o", "white", "", "", true, none, 0⟩], [], []⟩
    "g" ⟨none, none, some "Checkmate", none, none, none, none⟩
    ⟨"g", "f", "p", "o", "white", "", "", true, none, 0⟩

/-- Claim C10: a trimmed-non-empty owner id that is not a valid UUID makes
`CreateGame` fail before touching the registry, with or without a store, and
makes the POST new-game handler reply ok-false with status 500. -/
theorem c10_invalid_owner_uuid (h : HubS) (store : Option StoreFate)
    (parseUUID : String → Bool) (ownerID newID : String) (coin : Bool) (now : Int)
    (hne : trimS ownerID ≠ "") (hbad : parseUUID (trimS ownerID) = false) :
    createGame h store parseUUID ownerID newID coin now =
      (h, [], Except.error "invalid UUID") ∧
    (handleNew h store parseUUID (some ownerID) newID coin now).1.ok = false ∧
    (handleNew h store parseUUID (some ownerID) newID coin now).1.status = 500 ∧
    (handleNew h store parseUUID (some ownerID) newID coin now).2 = h := by
  have hcg : createGame h store parseUUID ownerID newID coin now =
      (h, [], Except.error "invalid UUID") := by
    unfold createGame
    rw [if_neg hne, hbad]
    simp
  have hcg2 : createGame h store parseUUID (trimS ownerID) newID coin now =
      (h, [], Except.error "invalid UUID") := by
    unfold createGame
    rw [trimS_idem, if_neg hne, hbad]
    simp
  refine ⟨hcg, ?_, ?_, ?_⟩ <;> simp [handleNew, hne, hcg2]

/-- Witness for claim C10 at a concrete hub and inputs. -/
theorem c10_invalid_owner_uuid_witness :
    createGame { games := [] } none (fun _ => false) "bad-id" "n" true 0 =
      ({ games := [] }, [], Except.error "invalid UUID") :=
  (c10_invalid_owner_uuid { games := [] } none (fun _ => false) "bad-id" "n" true 0
    (by decide) (by decide)).1

end Tinychess
